import Mathlib

/-!
Verification of the cinemascope-dashboard data pipeline.

Shallow embedding of the four scripts:
  * `scripts/get_data.py`      (fetcher; semaphore-bounded enrichment)
  * `scripts/data_processing.py` (cleaner)
  * `scripts/train_rf_model.py`  (trainer feature selection)
  * `scripts/dashboard.py`       (yearly aggregates, pie charts, list coercion)

Machine floats are modelled by exact rationals (`ℚ`); a pandas `NaN`
cell is `Option.none`.  Dataframes are modelled by lists of rows plus a
column-name/dtype schema where the claims need the schema.
-/

namespace CinemaScope

/-- A parsed calendar date, the result of `pd.to_datetime` on a raw
release-date string. -/
structure Date where
  year : Nat
  month : Nat
  day : Nat
deriving DecidableEq

/-- One row of the raw CSV written by `get_data.py` (the dict built in
`fetch_movie_details`, lines 60-77).  Numeric cells are `Option ℚ`
(`none` = NaN), list-valued cells are lists of names. -/
structure RawRow where
  id : Int
  title : String
  original_title : String
  overview : String
  release_date : String
  original_language : String
  popularity : Option ℚ
  vote_average : Option ℚ
  vote_count : Option ℚ
  adult : Bool
  genres : List String
  runtime : Option ℚ
  budget : Option ℚ
  revenue : Option ℚ
  production_countries : List String
  spoken_languages : List String
deriving DecidableEq

/-- Helper of `dropDuplicates`: keep the elements not yet seen,
threading the set of already-kept elements. -/
def dropDupsSeen {α : Type} [DecidableEq α] (seen : List α) : List α → List α
  | [] => []
  | x :: xs =>
    if x ∈ seen then dropDupsSeen seen xs
    else x :: dropDupsSeen (x :: seen) xs

/-- `df.drop_duplicates()` / `Series.unique()`: keep the first
occurrence of each distinct element, preserving order
(`data_processing.py` line 27 and line 46). -/
def dropDuplicates {α : Type} [DecidableEq α] (l : List α) : List α :=
  dropDupsSeen [] l

/-- Split a character list on the dash character (helper for date
parsing). -/
def splitOnDash : List Char → List (List Char)
  | [] => [[]]
  | c :: rest =>
    let r := splitOnDash rest
    if c = '-' then [] :: r
    else
      match r with
      | [] => [[c]]
      | g :: gs => (c :: g) :: gs

/-- Decimal digit value of a character, `none` when not a digit. -/
def charDigit (c : Char) : Option Nat :=
  if '0' ≤ c ∧ c ≤ '9' then some (c.toNat - '0'.toNat) else none

/-- Value of a non-empty all-digit character list. -/
def digitsVal : List Char → Option Nat
  | [] => none
  | cs => cs.foldl (fun acc c => acc.bind (fun n => (charDigit c).map (fun d => n * 10 + d))) (some 0)

/-- Model of `pd.to_datetime(e, errors='coerce')` on the ISO
`YYYY-MM-DD` strings produced by the catalog API: unparseable input
becomes missing (`data_processing.py` line 29). -/
def parseDate (s : String) : Option Date :=
  match splitOnDash s.toList with
  | [ys, ms, ds] =>
    match digitsVal ys, digitsVal ms, digitsVal ds with
    | some y, some m, some d =>
      if 1 ≤ m ∧ m ≤ 12 ∧ 1 ≤ d ∧ d ≤ 31 then some ⟨y, m, d⟩ else none
    | _, _, _ => none
  | _ => none

/-- `Series.replace(0, np.nan)`: a cell equal to literal zero becomes
missing, every other cell (missing included) is unchanged
(`data_processing.py` lines 36-37). -/
def replace0 (x : Option ℚ) : Option ℚ :=
  x.bind (fun v => if v = 0 then none else some v)

/-- The derived `roi` column:
`(df['revenue'] - df['budget']) / df['budget']` computed after the
zero-to-missing replacement; pandas arithmetic propagates missing
(`data_processing.py` line 38). -/
def roiOf (budget revenue : Option ℚ) : Option ℚ :=
  match replace0 budget, replace0 revenue with
  | some b, some r => some ((r - b) / b)
  | _, _ => none

/-- The fixed ordered display-name tuple `lang_representation`
(`data_processing.py` lines 47-57). -/
def langRepresentation : List String :=
  ["English", "Japanese", "French", "Chinese(Simplified)", "German", "Spanish",
   "Chinese(Traditional)", "Serbo-Croatian", "Arabic", "Italian", "Russian",
   "Korean", "Persian", "Hindi", "Polish", "Telugu", "Tamil", "Finnish",
   "Greek", "Swedish", "Dutch", "Czech", "Malayalam", "Tagalog", "Kannada",
   "Slovak", "Vietnamese", "Danish", "Hungarian", "Macedonian", "Serbian",
   "Thai", "Norwegian", "Turkish", "Portuguese", "Urdu", "Hebrew", "Bengali",
   "Tibetan", "Bosnian", "Unknown", "Tswana", "Kurdish", "Romanian",
   "Ukrainian", "Punjabi", "Lithuanian", "Icelandic", "Indonesian",
   "Afrikaans", "Estonian", "Marathi", "Khmer", "Galician", "Sinhala",
   "Basque", "Azerbaijani", "Albanian", "Dzongkha", "Mongolian", "Irish",
   "Hiri Motu", "Ido", "Catalan", "Kikuyu", "Latvian", "Malay", "Odia",
   "Georgian"]

/-- `dict(zip(lang, lang_representation))` where `distinct` is the tuple
of distinct observed language codes in first-observed order
(`data_processing.py` line 58). -/
def languageMap (distinct : List String) : List (String × String) :=
  distinct.zip langRepresentation

/-- `df['original_language'].map(language_map).fillna(df['original_language'])`:
look a code up in the zipped association list, falling back to the raw
code when unmapped (`data_processing.py` line 59). -/
def mapLanguageName (distinct : List String) (code : String) : String :=
  ((languageMap distinct).lookup code).getD code

/-- One row of the cleaned dataframe as returned by
`load_and_process_data` (log companion columns live at the dataframe
schema level, not per row; see `cleanedCols`). -/
structure CleanRow where
  id : String
  title : String
  release_date : Option Date
  popularity : Option ℚ
  vote_average : Option ℚ
  vote_count : Option ℚ
  genres : List String
  runtime : Option ℚ
  budget : Option ℚ
  revenue : Option ℚ
  production_countries : List String
  release_year : Option ℚ
  release_month : Option ℚ
  release_day : Option ℚ
  roi : Option ℚ
  language_name : String
deriving DecidableEq

/-- The per-row part of the cleaner (`data_processing.py` lines 29-38
and 59): date parsing and calendar fields, id stringification,
zero-to-missing replacement on budget/revenue, the roi derivation, and
the language-name mapping.  `distinct` is the tuple of distinct
observed language codes of the whole (deduplicated) dataframe. -/
def cleanRow (distinct : List String) (r : RawRow) : CleanRow :=
  let d := parseDate r.release_date
  { id := toString r.id
    title := r.title
    release_date := d
    popularity := r.popularity
    vote_average := r.vote_average
    vote_count := r.vote_count
    genres := r.genres
    runtime := r.runtime
    budget := replace0 r.budget
    revenue := replace0 r.revenue
    production_countries := r.production_countries
    release_year := d.map (fun x => (x.year : ℚ))
    release_month := d.map (fun x => (x.month : ℚ))
    release_day := d.map (fun x => (x.day : ℚ))
    roi := roiOf r.budget r.revenue
    language_name := mapLanguageName distinct r.original_language }

/-- The row-level pipeline of `load_and_process_data`: deduplicate by
full-row equality, then apply the columnwise transformations; the
language map is built from the distinct codes of the deduplicated
dataframe (`data_processing.py` lines 27-59). -/
def cleanRows (rows : List RawRow) : List CleanRow :=
  let dd := dropDuplicates rows
  let distinct := dropDuplicates (dd.map (fun r => r.original_language))
  dd.map (cleanRow distinct)

/-! ## Skew detection and the cleaned/trainer schemas -/

/-- Pandas column dtypes relevant to this pipeline. -/
inductive Dtype where
  | str : Dtype
  | num : Dtype
  | boolean : Dtype
  | obj : Dtype
  | datetime : Dtype
deriving DecidableEq

/-- Numeric cell of a cleaned row selected by column name; `none` for a
non-numeric column name. -/
def numField (c : CleanRow) (name : String) : Option ℚ :=
  if name = "popularity" then c.popularity
  else if name = "vote_average" then c.vote_average
  else if name = "vote_count" then c.vote_count
  else if name = "runtime" then c.runtime
  else if name = "budget" then c.budget
  else if name = "revenue" then c.revenue
  else if name = "release_year" then c.release_year
  else if name = "release_month" then c.release_month
  else if name = "release_day" then c.release_day
  else if name = "roi" then c.roi
  else none

/-- The numeric columns of the cleaned dataframe at the point where
`numeric_vars` is computed (`data_processing.py` line 40), in dataframe
column order. -/
def numericNames : List String :=
  ["popularity", "vote_average", "vote_count", "runtime", "budget",
   "revenue", "release_year", "release_month", "release_day", "roi"]

/-- Non-missing values of one numeric column (`skipna=True`). -/
def colValid (crows : List CleanRow) (name : String) : List ℚ :=
  (crows.map (fun c => numField c name)).filterMap id

/-- Pandas `Series.skew(skipna=True)` magnitude test, done exactly over
`ℚ`.  With `M2 = Σ (x-mean)^2` and `M3 = Σ (x-mean)^3`, pandas computes
`skew = n*sqrt(n-1)/(n-2) * M3 / M2^1.5`, returns NaN for `n < 3` and 0
when `M2 = 0`; hence `|skew| > 1` iff `n^2 (n-1) M3^2 > (n-2)^2 M2^3`. -/
def absSkewGtOne (xs : List ℚ) : Bool :=
  let n := xs.length
  if n < 3 then false
  else
    let mean := xs.sum / (n : ℚ)
    let m2 := (xs.map (fun x => (x - mean) ^ 2)).sum
    let m3 := (xs.map (fun x => (x - mean) ^ 3)).sum
    if m2 = 0 then false
    else decide (((n : ℚ) ^ 2 * ((n : ℚ) - 1)) * m3 ^ 2 > ((n : ℚ) - 2) ^ 2 * m2 ^ 3)

/-- `skewed_cols` (`data_processing.py` line 41): numeric columns other
than `id` and `popularity` whose absolute sample skew exceeds 1,
computed on the deduplicated, transformed dataframe. -/
def skewedCols (rows : List RawRow) : List String :=
  numericNames.filter
    (fun c =>
      decide (c ≠ "id") && decide (c ≠ "popularity") &&
        absSkewGtOne (colValid (cleanRows rows) c))

/-- Schema (name, dtype) of the raw dataframe read from the fetcher's
CSV, in the column order of the dict built in `get_data.py`. -/
def rawCols : List (String × Dtype) :=
  [("id", .num), ("title", .str), ("original_title", .str),
   ("overview", .str), ("release_date", .str), ("original_language", .str),
   ("popularity", .num), ("vote_average", .num), ("vote_count", .num),
   ("adult", .boolean), ("genres", .obj), ("runtime", .num),
   ("budget", .num), ("revenue", .num), ("production_countries", .obj),
   ("spoken_languages", .obj)]

/-- Columns the cleaner drops (`data_processing.py` line 61). -/
def cleanerDropCols : List String :=
  ["original_title", "overview", "adult", "spoken_languages", "original_language"]

/-- Schema of the cleaned dataframe returned by
`load_and_process_data`: the raw columns with `id` re-typed to string
and `release_date` parsed, then the derived calendar/roi columns, the
per-skewed-column log companions and `language_name` appended at the
end, and finally the cleaner's drop list removed
(`data_processing.py` lines 29-62). -/
def cleanedCols (rows : List RawRow) : List (String × Dtype) :=
  let base :=
    (rawCols.map
      (fun p =>
        if p.1 = "id" then ("id", Dtype.str)
        else if p.1 = "release_date" then ("release_date", Dtype.datetime)
        else p)) ++
    [("release_year", Dtype.num), ("release_month", Dtype.num),
     ("release_day", Dtype.num), ("roi", Dtype.num)] ++
    (skewedCols rows).map (fun c => (c ++ "_log", Dtype.num)) ++
    [("language_name", Dtype.obj)]
  base.filter (fun p => decide (p.1 ∉ cleanerDropCols))

/-- `drop_cols` of the trainer (`train_rf_model.py` line 29): the four
fixed names plus the skew-adjusted column set returned by the
cleaner. -/
def trainerDropCols (rows : List RawRow) : List String :=
  ["id", "title", "release_date", "spoken_languages"] ++ skewedCols rows

/-- The trainer's dataframe after
`df.drop(columns=[col for col in drop_cols if col in df.columns])`
(`train_rf_model.py` line 30); `dropna` removes rows, not columns. -/
def trainerCols (rows : List RawRow) : List (String × Dtype) :=
  (cleanedCols rows).filter (fun p => decide (p.1 ∉ trainerDropCols rows))

/-- `feature_cols` (`train_rf_model.py` line 46): every remaining
column other than `popularity` whose dtype is int/float/bool. -/
def featureCols (rows : List RawRow) : List String :=
  ((trainerCols rows).filter
    (fun p => decide (p.1 ≠ "popularity") &&
      decide (p.2 = Dtype.num ∨ p.2 = Dtype.boolean))).map Prod.fst

/-! ## Dashboard: list coercion, yearly aggregates, pie charts -/

/-- The dashboard's load-time list coercion
(`dashboard.py` line 17): an empty list becomes `['Unknown']`, any
other list is unchanged. -/
def dashboardCoerce (l : List String) : List String :=
  if l.isEmpty then ["Unknown"] else l

/-- One row of a yearly metric before aggregation: the release year and
the metric value of one movie (`none` = NaN cell). -/
structure MetricRow where
  year : Int
  value : Option ℚ
deriving DecidableEq

/-- `df.groupby('release_year')[col].mean()` looked up at year `y`
after `.reindex(all_years)`: the mean of the non-missing values of the
rows of that year, missing when the year has no non-missing value
(`dashboard.py` lines 20-32). -/
def groupMean (rows : List MetricRow) (y : Int) : Option ℚ :=
  let vs := ((rows.filter (fun r => decide (r.year = y))).map (fun r => r.value)).filterMap id
  if vs.isEmpty then none else some (vs.sum / (vs.length : ℚ))

/-- The reindexed yearly series over `range(min_year, min_year+len)`
(`dashboard.py` lines 27-32). -/
def reindexedSeries (rows : List MetricRow) (minY : Int) (len : Nat) : List (Option ℚ) :=
  (List.range len).map (fun i : Nat => groupMean rows (minY + (i : Int)))

/-- Last valid (non-missing) entry strictly before position `i`,
scanning downward — the left interpolation anchor used by pandas
`Series.interpolate`. -/
def lastValidBefore (l : List (Option ℚ)) : Nat → Option (Nat × ℚ)
  | 0 => none
  | j + 1 =>
    match l.getD j none with
    | some v => some (j, v)
    | none => lastValidBefore l j

/-- First valid entry at position `j` or later, with `fuel` remaining
positions to inspect. -/
def firstValidFrom (l : List (Option ℚ)) : Nat → Nat → Option (Nat × ℚ)
  | _, 0 => none
  | j, fuel + 1 =>
    match l.getD j none with
    | some v => some (j, v)
    | none => firstValidFrom l (j + 1) fuel

/-- First valid entry strictly after position `i` — the right
interpolation anchor. -/
def nextValidAfter (l : List (Option ℚ)) (i : Nat) : Option (Nat × ℚ) :=
  firstValidFrom l (i + 1) (l.length - (i + 1))

/-- One position of pandas `Series.interpolate()` with the default
linear method and forward limit direction (`dashboard.py` line 33): a
valid entry is unchanged; a missing entry with anchors on both sides
gets the linear interpolation between its nearest valid neighbours; a
missing entry with only a left anchor gets that anchor's value (forward
fill of the trailing gap); a missing entry with no left anchor stays
missing. -/
def interpolateAt (l : List (Option ℚ)) (i : Nat) : Option ℚ :=
  match l.getD i none with
  | some v => some v
  | none =>
    match lastValidBefore l i, nextValidAfter l i with
    | some (p, vp), some (q, vq) =>
      some (vp + (vq - vp) * (((i : ℚ) - (p : ℚ)) / ((q : ℚ) - (p : ℚ))))
    | some (_, vp), none => some vp
    | none, _ => none

/-- `Series.interpolate()` over the whole series. -/
def interpolateSeries (l : List (Option ℚ)) : List (Option ℚ) :=
  (List.range l.length).map (interpolateAt l)

/-- `.fillna(0)` (`dashboard.py` line 34). -/
def fillnaZero (l : List (Option ℚ)) : List ℚ :=
  l.map (fun x => x.getD 0)

/-- The dashboard's yearly aggregate pipeline for one metric:
groupby-mean, reindex over the year range, linear interpolation, zero
fill (`dashboard.py` lines 20-36). -/
def yearlyAggregate (rows : List MetricRow) (minY : Int) (len : Nat) : List ℚ :=
  fillnaZero (interpolateSeries (reindexedSeries rows minY len))

/-- Insert a (category, count) pair into a count-descending list,
keeping earlier-inserted pairs first on ties. -/
def insertByCount (p : String × Nat) : List (String × Nat) → List (String × Nat)
  | [] => [p]
  | q :: qs => if q.2 < p.2 then p :: q :: qs else q :: insertByCount p qs

/-- Sort (category, count) pairs by descending count. -/
def sortByCountDesc : List (String × Nat) → List (String × Nat)
  | [] => []
  | p :: ps => insertByCount p (sortByCountDesc ps)

/-- `Series.value_counts()`: occurrence counts of the distinct values,
sorted by descending count (`dashboard.py` lines 237 and 252). -/
def valueCounts (l : List String) : List (String × Nat) :=
  sortByCountDesc ((dropDuplicates l).map (fun a => (a, l.count a)))

/-- The pie-chart data (`dashboard.py` lines 237-241 and 252-256): the
top 8 categories of the counts plus an appended `Other` bucket holding
the sum of the remaining counts. -/
def pieData (l : List String) : List (String × Nat) :=
  let counts := valueCounts l
  counts.take 8 ++ [("Other", ((counts.drop 8).map Prod.snd).sum)]

/-- The genre pie input: the coerced genre lists of the filtered rows,
exploded to one entry per genre (`dashboard.py` lines 14-17, 237). -/
def genrePieData (crows : List CleanRow) : List (String × Nat) :=
  pieData ((crows.map (fun c => dashboardCoerce c.genres)).flatten)

/-- The language pie input: the `language_name` column
(`dashboard.py` line 252). -/
def langPieData (crows : List CleanRow) : List (String × Nat) :=
  pieData (crows.map (fun c => c.language_name))

/-! ## Fetcher: the bounded-concurrency enrichment gate -/

/-- The semaphore bound `asyncio.Semaphore(30)`
(`get_data.py` line 106). -/
def semLimit : Nat := 30

/-- Abstract state of the enrichment pass: how many detail-fetch tasks
have not yet entered the semaphore, how many currently hold it (their
request is outstanding), and how many have finished.  Every request of
`fetch_movie_details` is issued inside `async with semaphore`
(`get_data.py` lines 55-82). -/
structure FetchState where
  pending : Nat
  inflight : Nat
  completed : Nat
deriving DecidableEq

/-- Transitions of the enrichment pass: a pending task may acquire the
semaphore only while fewer than `semLimit` tasks hold it; a task
holding the semaphore releases it when its request finishes (success,
error status or exception all leave the `async with` block). -/
inductive FetchStep : FetchState → FetchState → Prop
  | acquire (s : FetchState) (hp : 0 < s.pending) (hcap : s.inflight < semLimit) :
      FetchStep s ⟨s.pending - 1, s.inflight + 1, s.completed⟩
  | release (s : FetchState) (hf : 0 < s.inflight) :
      FetchStep s ⟨s.pending, s.inflight - 1, s.completed + 1⟩

/-- Initial state of a run enriching `n` discovered movies
(`get_data.py` lines 107-111). -/
def initFetch (n : Nat) : FetchState := ⟨n, 0, 0⟩

/-- States reachable during a run of the enrichment pass. -/
def FetchReachable (n : Nat) (s : FetchState) : Prop :=
  Relation.ReflTransGen FetchStep (initFetch n) s

/-! ## Cleaner entry point: missing raw file -/

/-- Failures of the cleaning run. -/
inductive PipelineError where
  | fileNotFound (path : String) : PipelineError
deriving DecidableEq

/-- Path of the raw dataset (`data_processing.py` line 13). -/
def rawFilePath : String := "data/tmdb_movies_1990_2025.csv"

/-- Path of the cleaned dataset (`data_processing.py` line 14). -/
def cleanFilePath : String := "data/tmdb_movies_cleaned.csv"

/-- Observable outcome of one cleaning run: the returned value or the
re-raised exception, the log lines, and the files written. -/
structure RunTrace where
  result : Except PipelineError (List CleanRow × List String)
  logs : List String
  writes : List (String × List CleanRow)

/-- `load_and_process_data` (`data_processing.py` lines 18-68) at the
I/O boundary: `raw` is the content of the raw CSV when it exists.  A
missing file makes `pd.read_csv` raise `FileNotFoundError`; the handler
logs the error and re-raises, so nothing is written.  Otherwise the
rows are cleaned, the cleaned file is written, and the dataframe plus
the skew-adjusted column set are returned. -/
def loadAndProcessData (raw : Option (List RawRow)) : RunTrace :=
  match raw with
  | none =>
    { result := Except.error (PipelineError.fileNotFound rawFilePath)
      logs := ["File not found: " ++ rawFilePath]
      writes := [] }
  | some rows =>
    let cleaned := cleanRows rows
    { result := Except.ok (cleaned, skewedCols rows)
      logs := ["Loaded raw data from " ++ rawFilePath,
               "Saved cleaned data to: " ++ cleanFilePath]
      writes := [(cleanFilePath, cleaned)] }

/-! ## Skew companion columns: clip and log1p -/

/-- `Series.clip(lower=0)` (`data_processing.py` line 44). -/
def clipLower0 (x : ℚ) : ℚ := max x 0

/-- `np.log1p` on one cell: a finite real for arguments greater than
-1, NaN or negative infinity (modelled as `none`) otherwise
(`data_processing.py` line 44). -/
noncomputable def npLog1p (x : ℚ) : Option Real :=
  if -1 < x then some (Real.log (1 + (x : Real))) else none

/-- One cell of a `_log` companion column:
`np.log1p(df[col].clip(lower=0))`. -/
noncomputable def logCompanion (x : ℚ) : Option Real :=
  npLog1p (clipLower0 x)

/-! ## Concrete inputs used by counterexamples and witnesses -/

/-- A raw row with the given identifier and budget; all other fields
fixed. -/
def exRow (i : Int) (b : ℚ) : RawRow :=
  { id := i, title := "t", original_title := "ot", overview := "o",
    release_date := "2000-01-01", original_language := "en",
    popularity := some 1, vote_average := some 5, vote_count := some 10,
    adult := false, genres := ["Drama"], runtime := some 100,
    budget := some b, revenue := some 2,
    production_countries := ["United States of America"],
    spoken_languages := ["English"] }

/-- A concrete raw dataset whose budget column (values 1, 1, 1, 100) is
strongly right-skewed, so the cleaner creates a `budget_log` companion
column. -/
def exRows : List RawRow := [exRow 1 1, exRow 2 1, exRow 3 1, exRow 4 100]

/-- Position of the first occurrence of a code in a code list (the
positional index used by the zip-built language map). -/
def posOf (c : String) : List String → Nat
  | [] => 0
  | d :: ds => if d = c then 0 else posOf c ds + 1

/-- A raw row whose list-valued fields are all empty. -/
def emptyListRow : RawRow :=
  { exRow 1 1 with genres := [], production_countries := [], spoken_languages := [] }

/-- A raw row with literal-zero budget and a positive revenue (the
spec's end-to-end roi scenario). -/
def budgetZeroRow : RawRow :=
  { exRow 5 1 with budget := some 0, revenue := some 500 }

/-- A single-letter alphabet used to generate many distinct language
codes. -/
def codeLetters : List String := ["a", "b", "c", "d", "e", "f", "g", "h", "i"]

/-- 70 distinct two-letter language codes — one more than the 69
entries of the fixed name list, so the last code is not covered by the
zip. -/
def manyCodes : List String :=
  ((codeLetters.map (fun a => codeLetters.map (fun b => a ++ b))).flatten).take 70

/-- A raw row in the given original language. -/
def langRow (c : String) : RawRow :=
  { exRow 7 1 with original_language := c }

/-- A raw dataset observing 69 distinct language codes. -/
def langRows : List RawRow := manyCodes.map langRow

/-- A concrete cleaned row (one genre, one country) used to exercise
the pie charts on fewer than 8 categories. -/
def exClean : CleanRow :=
  { id := "1", title := "t", release_date := none, popularity := none,
    vote_average := none, vote_count := none, genres := ["Drama"],
    runtime := none, budget := none, revenue := none,
    production_countries := ["US"], release_year := none,
    release_month := none, release_day := none, roi := none,
    language_name := "English" }

/-- A concrete yearly metric input: data observed in 2000 and 2002,
nothing in 2001. -/
def gapRows : List MetricRow := [⟨2000, some 2⟩, ⟨2002, some 6⟩]

/-- A concrete yearly metric input whose first observed year is 2002,
leaving 2000 and 2001 as leading gap years. -/
def leadGapRows : List MetricRow := [⟨2002, some 5⟩]

/-! ## General lemmas about deduplication -/

theorem mem_dropDupsSeen {α : Type} [DecidableEq α] (l : List α) :
    ∀ (seen : List α) (a : α), a ∈ dropDupsSeen seen l ↔ a ∈ l ∧ a ∉ seen := by
  induction l with
  | nil => intro seen a; simp [dropDupsSeen]
  | cons x xs ih =>
    intro seen a
    simp only [dropDupsSeen]
    split
    · rename_i hx
      rw [ih]
      constructor
      · rintro ⟨h1, h2⟩
        exact ⟨List.mem_cons_of_mem _ h1, h2⟩
      · rintro ⟨h1, h2⟩
        rcases List.mem_cons.mp h1 with h | h
        · subst h; exact absurd hx h2
        · exact ⟨h, h2⟩
    · rename_i hx
      simp only [List.mem_cons, ih]
      constructor
      · rintro (h | ⟨h1, h2⟩)
        · subst h; exact ⟨Or.inl rfl, hx⟩
        · exact ⟨Or.inr h1, fun hs => h2 (Or.inr hs)⟩
      · rintro ⟨h1 | h1, h2⟩
        · left; exact h1
        · by_cases hax : a = x
          · left; exact hax
          · right
            exact ⟨h1, fun hs => hs.elim hax h2⟩

theorem mem_dropDuplicates {α : Type} [DecidableEq α] (l : List α) (a : α) :
    a ∈ dropDuplicates l ↔ a ∈ l := by
  rw [dropDuplicates, mem_dropDupsSeen]
  simp

theorem nodup_dropDupsSeen {α : Type} [DecidableEq α] (l : List α) :
    ∀ seen : List α, (dropDupsSeen seen l).Nodup := by
  induction l with
  | nil => intro seen; simp [dropDupsSeen]
  | cons x xs ih =>
    intro seen
    simp only [dropDupsSeen]
    split
    · exact ih seen
    · refine List.nodup_cons.mpr ⟨?_, ih (x :: seen)⟩
      intro hx
      exact ((mem_dropDupsSeen xs (x :: seen) x).mp hx).2 (List.mem_cons_self x seen)

theorem dropDupsSeen_eq_self {α : Type} [DecidableEq α] (l : List α) :
    ∀ seen : List α, l.Nodup → (∀ a ∈ l, a ∉ seen) → dropDupsSeen seen l = l := by
  induction l with
  | nil => intro seen _ _; rfl
  | cons x xs ih =>
    intro seen hnd hdisj
    have hx : x ∉ seen := hdisj x (List.mem_cons_self x xs)
    simp only [dropDupsSeen, if_neg hx]
    congr 1
    refine ih (x :: seen) (List.nodup_cons.mp hnd).2 ?_
    intro a ha hmem
    rcases List.mem_cons.mp hmem with h | h
    · subst h; exact (List.nodup_cons.mp hnd).1 ha
    · exact hdisj a (List.mem_cons_of_mem _ ha) h

theorem nodup_dropDuplicates {α : Type} [DecidableEq α] (l : List α) :
    (dropDuplicates l).Nodup :=
  nodup_dropDupsSeen l []

theorem dropDuplicates_idem {α : Type} [DecidableEq α] (l : List α) :
    dropDuplicates (dropDuplicates l) = dropDuplicates l :=
  dropDupsSeen_eq_self _ [] (nodup_dropDuplicates l) (by simp)

/-! ## Skew computations on the concrete dataset -/

theorem absSkewGtOne_true_iff (xs : List ℚ) :
    absSkewGtOne xs = true ↔
      3 ≤ xs.length ∧
      (xs.map (fun x => (x - xs.sum / (xs.length : ℚ)) ^ 2)).sum ≠ 0 ∧
      ((xs.length : ℚ) ^ 2 * ((xs.length : ℚ) - 1)) *
          (xs.map (fun x => (x - xs.sum / (xs.length : ℚ)) ^ 3)).sum ^ 2 >
        ((xs.length : ℚ) - 2) ^ 2 *
          (xs.map (fun x => (x - xs.sum / (xs.length : ℚ)) ^ 2)).sum ^ 3 := by
  simp only [absSkewGtOne]
  split
  · rename_i h
    simp only [Bool.false_eq_true, false_iff]
    intro hc
    exact absurd hc.1 (by omega)
  · rename_i h
    split
    · rename_i h2
      simp only [Bool.false_eq_true, false_iff]
      intro hc
      exact hc.2.1 h2
    · rename_i h2
      simp only [decide_eq_true_eq]
      exact ⟨fun hgt => ⟨by omega, h2, hgt⟩, fun hc => hc.2.2⟩

theorem budget_colValid_exRows : colValid (cleanRows exRows) "budget" = [1, 1, 1, 100] := by
  simp [colValid, cleanRows, cleanRow, dropDuplicates, dropDupsSeen, exRows, exRow,
    numField, replace0]

theorem roi_colValid_exRows : colValid (cleanRows exRows) "roi" = [1, 1, 1, -49/50] := by
  simp [colValid, cleanRows, cleanRow, dropDuplicates, dropDupsSeen, exRows, exRow,
    numField, replace0, roiOf]
  norm_num

theorem budget_mem_skewedCols_exRows : "budget" ∈ skewedCols exRows := by
  refine List.mem_filter.mpr ⟨by decide, ?_⟩
  rw [Bool.and_eq_true, Bool.and_eq_true]
  refine ⟨⟨by decide, by decide⟩, ?_⟩
  rw [budget_colValid_exRows, absSkewGtOne_true_iff]
  norm_num

theorem roi_mem_skewedCols_exRows : "roi" ∈ skewedCols exRows := by
  refine List.mem_filter.mpr ⟨by decide, ?_⟩
  rw [Bool.and_eq_true, Bool.and_eq_true]
  refine ⟨⟨by decide, by decide⟩, ?_⟩
  rw [roi_colValid_exRows, absSkewGtOne_true_iff]
  norm_num

theorem roi_neg_mem_colValid_exRows : (-49/50 : ℚ) ∈ colValid (cleanRows exRows) "roi" := by
  rw [roi_colValid_exRows]
  norm_num

/-! ## The trainer's feature-column set -/

theorem mem_skewedCols_numeric {rows : List RawRow} {c : String}
    (h : c ∈ skewedCols rows) : c ∈ numericNames :=
  (List.mem_filter.mp h).1

theorem log_names_fresh :
    ∀ c ∈ numericNames,
      (c ++ "_log") ∉ cleanerDropCols ∧
      (c ++ "_log") ∉ (["id", "title", "release_date", "spoken_languages"] : List String) ∧
      (c ++ "_log") ∉ numericNames ∧
      (c ++ "_log") ≠ "popularity" := by decide

theorem log_mem_cleanedCols {rows : List RawRow} {c : String}
    (h : c ∈ skewedCols rows) : (c ++ "_log", Dtype.num) ∈ cleanedCols rows := by
  have hfresh := log_names_fresh c (mem_skewedCols_numeric h)
  refine List.mem_filter.mpr ⟨?_, decide_eq_true hfresh.1⟩
  simp only [List.append_assoc, List.mem_append, List.mem_map]
  exact Or.inr (Or.inr (Or.inl ⟨c, h, rfl⟩))

theorem log_not_in_trainerDrop {rows : List RawRow} {c : String}
    (h : c ∈ skewedCols rows) : (c ++ "_log") ∉ trainerDropCols rows := by
  have hfresh := log_names_fresh c (mem_skewedCols_numeric h)
  intro hmem
  rcases List.mem_append.mp hmem with h4 | hsk
  · exact hfresh.2.1 h4
  · exact hfresh.2.2.1 (mem_skewedCols_numeric hsk)

theorem log_mem_featureCols {rows : List RawRow} {c : String}
    (h : c ∈ skewedCols rows) : (c ++ "_log") ∈ featureCols rows := by
  have hfresh := log_names_fresh c (mem_skewedCols_numeric h)
  refine List.mem_map.mpr ⟨(c ++ "_log", Dtype.num), ?_, rfl⟩
  refine List.mem_filter.mpr ⟨?_, ?_⟩
  · exact List.mem_filter.mpr ⟨log_mem_cleanedCols h, decide_eq_true (log_not_in_trainerDrop h)⟩
  · rw [Bool.and_eq_true]
    exact ⟨decide_eq_true hfresh.2.2.2, decide_eq_true (Or.inl rfl)⟩

theorem not_mem_featureCols_of_dropped {rows : List RawRow} {x : String}
    (hx : x ∈ trainerDropCols rows) : x ∉ featureCols rows := by
  intro hmem
  rcases List.mem_map.mp hmem with ⟨p, hp, rfl⟩
  have hp2 := List.mem_filter.mp (List.mem_filter.mp hp).1
  exact of_decide_eq_true hp2.2 hx

/-! ## Claim C1: trainer feature columns versus skew-derived columns -/

/-- C1 counterexample: on the concrete dataset `exRows` the budget
column is skewed, and the `budget_log` companion column DOES appear
among the model's feature columns — the trainer drops the original
skewed columns, not their log companions, so the claim that no column
ending in `_log` is a feature is false. -/
theorem c1_log_column_among_features_cex : ("budget_log" : String) ∈ featureCols exRows := by
  have h := log_mem_featureCols budget_mem_skewedCols_exRows
  exact (by rfl : ("budget" ++ "_log" : String) = "budget_log") ▸ h

/-- C1 (amended): for every run of the trainer, the feature set
excludes the identifier, title, release date, spoken-languages column
and every ORIGINAL skewed column, while the `_log` companion column of
every skewed column remains among the model's feature columns (and
hence in the persisted importance table). -/
theorem c1_trainer_feature_columns_amended (rows : List RawRow) :
    "id" ∉ featureCols rows ∧ "title" ∉ featureCols rows ∧
    "release_date" ∉ featureCols rows ∧ "spoken_languages" ∉ featureCols rows ∧
    ∀ c, c ∈ skewedCols rows → c ∉ featureCols rows ∧ (c ++ "_log") ∈ featureCols rows := by
  refine ⟨?_, ?_, ?_, ?_, ?_⟩
  · exact not_mem_featureCols_of_dropped (by simp [trainerDropCols])
  · exact not_mem_featureCols_of_dropped (by simp [trainerDropCols])
  · exact not_mem_featureCols_of_dropped (by simp [trainerDropCols])
  · exact not_mem_featureCols_of_dropped (by simp [trainerDropCols])
  · intro c hc
    exact ⟨not_mem_featureCols_of_dropped (List.mem_append.mpr (Or.inr hc)),
      log_mem_featureCols hc⟩

/-- C1 witness: the amended theorem applied to the concrete skewed
dataset `exRows` at the skewed column `budget`. -/
theorem c1_trainer_feature_columns_amended_witness :
    "budget" ∉ featureCols exRows ∧ ("budget" ++ "_log") ∈ featureCols exRows :=
  (c1_trainer_feature_columns_amended exRows).2.2.2.2 "budget" budget_mem_skewedCols_exRows

/-! ## Claim C6: deduplication is idempotent -/

/-- C6: the cleaner's full-row-equality deduplication is idempotent —
deduplicating an already-deduplicated row set returns it unchanged (in
particular with the same row count) — and a raw file consisting of two
identical rows yields exactly one cleaned row. -/
theorem c6_dedup_idempotent :
    (∀ rows : List RawRow, dropDuplicates (dropDuplicates rows) = dropDuplicates rows) ∧
    ∀ r : RawRow, (cleanRows [r, r]).length = 1 := by
  refine ⟨fun rows => dropDuplicates_idem rows, fun r => ?_⟩
  simp [cleanRows, dropDuplicates, dropDupsSeen]

/-! ## Claim C3: the roi derivation -/

/-- C3: after the zero-to-missing replacement, the cleaned row's roi is
missing whenever the raw budget is missing or literal zero; whenever
the replaced budget is a value `b`, the denominator `b` is non-zero and
roi equals `(revenue - b) / b` computed on the replaced revenue (so a
missing replaced revenue gives a missing roi). -/
theorem c3_roi_zero_budget (distinct : List String) (r : RawRow) :
    ((r.budget = none ∨ r.budget = some 0) → (cleanRow distinct r).roi = none) ∧
    ∀ b : ℚ, replace0 r.budget = some b →
      b ≠ 0 ∧ (cleanRow distinct r).roi = (replace0 r.revenue).map (fun v => (v - b) / b) := by
  have hroi : (cleanRow distinct r).roi = roiOf r.budget r.revenue := rfl
  constructor
  · intro h
    rcases h with h | h <;> simp [hroi, roiOf, replace0, h]
  · intro b hb
    rcases hr : r.budget with _ | v
    · rw [hr] at hb; simp [replace0] at hb
    · rw [hr] at hb
      simp only [replace0, Option.some_bind] at hb
      by_cases hv : v = 0
      · rw [if_pos hv] at hb; exact absurd hb (by simp)
      · rw [if_neg hv] at hb
        rcases Option.some_inj.mp hb with rfl
        refine ⟨hv, ?_⟩
        rw [hroi, roiOf]
        rcases hrev : replace0 r.revenue with _ | w
        · simp [replace0, hr, hv, hrev]
        · simp [replace0, hr, hv, hrev]

/-- C3 witness: the spec's end-to-end scenario (budget 0, revenue 500)
yields a missing roi; a non-zero budget of 4 yields the quotient
formula with non-zero denominator. -/
theorem c3_roi_zero_budget_witness :
    (cleanRow [] budgetZeroRow).roi = none ∧
    ((4 : ℚ) ≠ 0 ∧ (cleanRow [] (exRow 1 4)).roi
        = (replace0 (exRow 1 4).revenue).map (fun v => (v - 4) / 4)) :=
  ⟨(c3_roi_zero_budget [] budgetZeroRow).1 (Or.inr rfl),
   (c3_roi_zero_budget [] (exRow 1 4)).2 4 (by decide)⟩

/-! ## Claim C7: totality of the log1p companion transform -/

/-- C7: for every skewed column, the log1p companion transform is total
on the column's non-missing values: the clip-then-log1p composition is
always defined (never NaN from a negative argument), and a negative
input is clipped to zero before the transform. -/
theorem c7_log1p_companion_total (rows : List RawRow) (c : String) (x : ℚ)
    (hc : c ∈ skewedCols rows) (hx : x ∈ colValid (cleanRows rows) c) :
    logCompanion x ≠ none ∧ (x < 0 → logCompanion x = npLog1p 0) := by
  constructor
  · have h : (-1 : ℚ) < clipLower0 x :=
      lt_of_lt_of_le (by norm_num) (le_max_right x 0)
    simp [logCompanion, npLog1p, h]
  · intro hneg
    have h0 : clipLower0 x = 0 := max_eq_right (le_of_lt hneg)
    rw [logCompanion, h0]

/-- C7 witness: on `exRows` the roi column is skewed and holds the
negative value -49/50, whose companion cell is defined and equal to the
transform of the clipped value 0. -/
theorem c7_log1p_companion_total_witness :
    logCompanion (-49/50 : ℚ) ≠ none ∧ logCompanion (-49/50 : ℚ) = npLog1p 0 :=
  ⟨(c7_log1p_companion_total exRows "roi" (-49/50) roi_mem_skewedCols_exRows
      roi_neg_mem_colValid_exRows).1,
   (c7_log1p_companion_total exRows "roi" (-49/50) roi_mem_skewedCols_exRows
      roi_neg_mem_colValid_exRows).2 (by norm_num)⟩

/-! ## Claim C2: list-valued fields and the Unknown sentinel -/

theorem dashboardCoerce_ne_nil (l : List String) : dashboardCoerce l ≠ [] := by
  cases l <;> simp [dashboardCoerce]

theorem dashboardCoerce_of_nil (l : List String) (h : l = []) :
    dashboardCoerce l = ["Unknown"] := by
  subst h; rfl

/-- C2 counterexample: the cleaner itself leaves an originally empty
genre list empty — the cleaned output of a row with `genres=[]` still
has `genres=[]`, not `[Unknown]`, so not every list-valued field is
non-empty after cleaning. -/
theorem c2_cleaned_output_keeps_empty_lists_cex :
    (cleanRows [emptyListRow]).map (fun c => c.genres) = [([] : List String)] ∧
    ¬ ∀ c ∈ cleanRows [emptyListRow], c.genres ≠ [] := by
  have h1 : (cleanRows [emptyListRow]).map (fun c => c.genres) = [([] : List String)] := by
    simp [cleanRows, dropDuplicates, dropDupsSeen, cleanRow, emptyListRow, exRow]
  refine ⟨h1, fun hall => ?_⟩
  have h2 : ∀ gs ∈ (cleanRows [emptyListRow]).map (fun c => c.genres), gs ≠ [] := by
    intro gs hgs
    rcases List.mem_map.mp hgs with ⟨c, hc, rfl⟩
    exact hall c hc
  rw [h1] at h2
  exact h2 [] (by simp) rfl

/-- C2 (amended): the empty-to-Unknown coercion happens at dashboard
load time, not in the cleaner: after the dashboard's coercion the genre
and production-country fields of every cleaned row are non-empty and an
originally empty list becomes exactly `[Unknown]`; the
spoken-languages column is dropped by the cleaner and is absent from
the cleaned output altogether. -/
theorem c2_list_fields_amended :
    (∀ (rows : List RawRow) (c : CleanRow), c ∈ cleanRows rows →
      dashboardCoerce c.genres ≠ [] ∧
      (c.genres = [] → dashboardCoerce c.genres = ["Unknown"]) ∧
      dashboardCoerce c.production_countries ≠ [] ∧
      (c.production_countries = [] → dashboardCoerce c.production_countries = ["Unknown"])) ∧
    ∀ rows : List RawRow, "spoken_languages" ∉ (cleanedCols rows).map Prod.fst := by
  constructor
  · intro rows c _
    exact ⟨dashboardCoerce_ne_nil _, dashboardCoerce_of_nil _,
      dashboardCoerce_ne_nil _, dashboardCoerce_of_nil _⟩
  · intro rows hmem
    rcases List.mem_map.mp hmem with ⟨p, hp, hp1⟩
    have h2 := of_decide_eq_true (List.mem_filter.mp hp).2
    apply h2
    rw [hp1]
    decide

/-- C2 witness: the amended theorem applied to the concrete row with
empty lists; its coerced genre list is exactly the Unknown sentinel and
the cleaned schema has no spoken-languages column. -/
theorem c2_list_fields_amended_witness :
    dashboardCoerce (cleanRow ["en"] emptyListRow).genres = ["Unknown"] ∧
    "spoken_languages" ∉ (cleanedCols [emptyListRow]).map Prod.fst :=
  ⟨(c2_list_fields_amended.1 [emptyListRow] (cleanRow ["en"] emptyListRow)
      (by simp [cleanRows, dropDuplicates, dropDupsSeen, emptyListRow, exRow])).2.1 rfl,
   c2_list_fields_amended.2 [emptyListRow]⟩

/-! ## Claim C5: the positional language-name mapping -/

theorem lookup_languageMap_eq_get (distinct : List String) (c : String)
    (h : c ∈ distinct) :
    (languageMap distinct).lookup c = langRepresentation[posOf c distinct]? := by
  rw [languageMap]
  generalize langRepresentation = names
  induction distinct generalizing names with
  | nil => cases h
  | cons d ds ih =>
    cases names with
    | nil => simp [posOf]
    | cons n ns =>
      simp only [List.zip_cons_cons, List.lookup, posOf]
      by_cases hdc : d = c
      · have hbeq : (c == d) = true := beq_iff_eq.mpr hdc.symm
        simp [hbeq, if_pos hdc]
      · have hbeq : (c == d) = false :=
          beq_eq_false_iff_ne.mpr (fun h' => hdc h'.symm)
        have hmem : c ∈ ds := by
          rcases List.mem_cons.mp h with h' | h'
          · exact absurd h'.symm hdc
          · exact h'
        simp only [hbeq, if_neg hdc]
        have hzip : List.lookup c (List.zipWith Prod.mk ds ns) = ns[posOf c ds]? :=
          ih hmem ns
        rw [hzip]
        simp

/-- C5: the language-name mapping is positional — for a deduplicated
row whose code sits at position `p` of the distinct-codes tuple (first
observed order), the cleaned `language_name` is the `p`-th entry of the
fixed name list when `p` is covered, and the raw code unchanged when
the name list has fewer than `p + 1` entries. -/
theorem c5_language_mapping (rows : List RawRow) (r : RawRow)
    (hr : r ∈ dropDuplicates rows) (distinct : List String)
    (hd : distinct = dropDuplicates ((dropDuplicates rows).map (fun q => q.original_language))) :
    (∀ nm, langRepresentation[posOf r.original_language distinct]? = some nm →
      (cleanRow distinct r).language_name = nm) ∧
    (langRepresentation[posOf r.original_language distinct]? = none →
      (cleanRow distinct r).language_name = r.original_language) := by
  have hmem : r.original_language ∈ distinct := by
    rw [hd, mem_dropDuplicates]
    exact List.mem_map.mpr ⟨r, hr, rfl⟩
  have hname : (cleanRow distinct r).language_name
      = ((languageMap distinct).lookup r.original_language).getD r.original_language := rfl
  have hlu := lookup_languageMap_eq_get distinct r.original_language hmem
  constructor
  · intro nm hnm
    rw [hname, hlu, hnm]
    rfl
  · intro hnone
    rw [hname, hlu, hnone]
    rfl

/-- C5 witness: a covered code (position 0 maps to English) and an
uncovered one (the 70th distinct code, beyond the 69-entry name list,
falls back to the raw code). -/
theorem c5_language_mapping_witness :
    (cleanRow ["en"] (exRow 1 1)).language_name = "English" ∧
    (cleanRow manyCodes (langRow "hg")).language_name = "hg" :=
  ⟨(c5_language_mapping [exRow 1 1] (exRow 1 1) (by decide) ["en"] (by decide)).1
      "English" (by decide),
   (c5_language_mapping langRows (langRow "hg") (by decide) manyCodes (by decide)).2
      (by decide)⟩

/-! ## Claim C9: missing raw file is fatal -/

/-- C9: when the raw dataset file is missing at cleaning time, the
cleaner logs the file-not-found error, re-raises it, and writes no
cleaned output file. -/
theorem c9_missing_raw_file_fatal (raw : Option (List RawRow)) (h : raw = none) :
    (loadAndProcessData raw).result
        = Except.error (PipelineError.fileNotFound rawFilePath) ∧
    ("File not found: " ++ rawFilePath) ∈ (loadAndProcessData raw).logs ∧
    (loadAndProcessData raw).writes = [] := by
  subst h
  refine ⟨rfl, ?_, rfl⟩
  simp [loadAndProcessData]

/-- C9 witness: the theorem at the missing-file input. -/
theorem c9_missing_raw_file_fatal_witness :
    (loadAndProcessData none).result
        = Except.error (PipelineError.fileNotFound rawFilePath) ∧
    ("File not found: " ++ rawFilePath) ∈ (loadAndProcessData none).logs ∧
    (loadAndProcessData none).writes = [] :=
  c9_missing_raw_file_fatal none rfl

/-! ## Claim C10: the pie charts always append an Other bucket -/

theorem pieData_getLast (l : List String) :
    (pieData l).getLast? = some ("Other", (((valueCounts l).drop 8).map Prod.snd).sum) := by
  rw [pieData]
  exact List.getLast?_concat _

theorem other_mem_pieData (l : List String) :
    "Other" ∈ (pieData l).map Prod.fst := by
  rw [pieData]
  simp

theorem pieData_short (l : List String) (h : (valueCounts l).length ≤ 8) :
    (pieData l).getLast? = some ("Other", 0) := by
  rw [pieData_getLast, List.drop_eq_nil_of_le h]
  rfl

/-- C10: in both the genre and the language pie, the aggregated Other
category is always present (appended after the top-8 slice); when there
are at most 8 distinct categories the appended Other slice carries
count 0. -/
theorem c10_pie_other_always_appended (crows : List CleanRow) :
    ("Other" ∈ (genrePieData crows).map Prod.fst ∧
      ((valueCounts ((crows.map (fun c => dashboardCoerce c.genres)).flatten)).length ≤ 8 →
        (genrePieData crows).getLast? = some ("Other", 0))) ∧
    ("Other" ∈ (langPieData crows).map Prod.fst ∧
      ((valueCounts (crows.map (fun c => c.language_name))).length ≤ 8 →
        (langPieData crows).getLast? = some ("Other", 0))) :=
  ⟨⟨other_mem_pieData _, fun h => pieData_short _ h⟩,
   ⟨other_mem_pieData _, fun h => pieData_short _ h⟩⟩

/-- C10 witness: on a one-row dataset with a single genre and language
(fewer than 8 categories) both pies still end with an Other slice of
count 0. -/
theorem c10_pie_other_always_appended_witness :
    (genrePieData [exClean]).getLast? = some ("Other", 0) ∧
    (langPieData [exClean]).getLast? = some ("Other", 0) :=
  ⟨(c10_pie_other_always_appended [exClean]).1.2 (by decide),
   (c10_pie_other_always_appended [exClean]).2.2 (by decide)⟩

/-! ## Claim C4: yearly aggregate interpolation -/

theorem reindexedSeries_length (rows : List MetricRow) (minY : Int) (len : Nat) :
    (reindexedSeries rows minY len).length = len := by
  simp [reindexedSeries]

theorem reindexedSeries_getD (rows : List MetricRow) (minY : Int) (len : Nat)
    (i : Nat) (h : i < len) :
    (reindexedSeries rows minY len).getD i none = groupMean rows (minY + i) := by
  rw [reindexedSeries, List.getD_eq_getElem?_getD, List.getElem?_map,
    List.getElem?_range h]
  rfl

theorem yearlyAggregate_getD (rows : List MetricRow) (minY : Int) (len : Nat)
    (i : Nat) (h : i < len) :
    (yearlyAggregate rows minY len).getD i 0
      = (interpolateAt (reindexedSeries rows minY len) i).getD 0 := by
  have hlen : (reindexedSeries rows minY len).length = len :=
    reindexedSeries_length rows minY len
  rw [yearlyAggregate, fillnaZero, interpolateSeries, List.getD_eq_getElem?_getD,
    List.getElem?_map, List.getElem?_map, hlen, List.getElem?_range h]
  rfl

theorem lastValidBefore_eq_some (l : List (Option ℚ)) (p : Nat) (vp : ℚ)
    (hp : l.getD p none = some vp) :
    ∀ i, p < i → (∀ j, p < j → j < i → l.getD j none = none) →
      lastValidBefore l i = some (p, vp) := by
  intro i
  induction i with
  | zero => intro h _; exact absurd h (Nat.not_lt_zero p)
  | succ n ih =>
    intro hpi hall
    by_cases hpn : p = n
    · subst hpn
      show (match l.getD p none with
        | some v => some (p, v)
        | none => lastValidBefore l p) = some (p, vp)
      rw [hp]
    · have hpn' : p < n := by omega
      have hn : l.getD n none = none := hall n hpn' (Nat.lt_succ_self n)
      show (match l.getD n none with
        | some v => some (n, v)
        | none => lastValidBefore l n) = some (p, vp)
      rw [hn]
      exact ih hpn' (fun j h1 h2 => hall j h1 (by omega))

theorem getD_eq_none_of_lastValidBefore_none (l : List (Option ℚ)) :
    ∀ i, lastValidBefore l i = none → ∀ j, j < i → l.getD j none = none := by
  intro i
  induction i with
  | zero => intro _ j hj; exact absurd hj (Nat.not_lt_zero j)
  | succ n ih =>
    intro hnone j hj
    have hnone' : (match l.getD n none with
        | some v => some (n, v)
        | none => lastValidBefore l n) = none := hnone
    rcases hgn : l.getD n none with _ | v
    · rw [hgn] at hnone'
      have hrec : lastValidBefore l n = none := hnone'
      rcases Nat.lt_succ_iff_lt_or_eq.mp hj with h | h
      · exact ih hrec j h
      · subst h; exact hgn
    · rw [hgn] at hnone'
      exact Option.noConfusion hnone'

theorem firstValidFrom_eq_some (l : List (Option ℚ)) (q : Nat) (vq : ℚ)
    (hq : l.getD q none = some vq) :
    ∀ fuel j, j ≤ q → q < j + fuel →
      (∀ k, j ≤ k → k < q → l.getD k none = none) →
      firstValidFrom l j fuel = some (q, vq) := by
  intro fuel
  induction fuel with
  | zero => intro j h1 h2 _; exact absurd h2 (by omega)
  | succ n ih =>
    intro j hjq hlt hall
    by_cases hj : j = q
    · subst hj
      show (match l.getD j none with
        | some v => some (j, v)
        | none => firstValidFrom l (j + 1) n) = some (j, vq)
      rw [hq]
    · have hj' : j < q := by omega
      have hnone : l.getD j none = none := hall j (Nat.le_refl j) hj'
      show (match l.getD j none with
        | some v => some (j, v)
        | none => firstValidFrom l (j + 1) n) = some (q, vq)
      rw [hnone]
      exact ih (j + 1) (by omega) (by omega) (fun k h1 h2 => hall k (by omega) h2)

theorem nextValidAfter_eq_some (l : List (Option ℚ)) (i q : Nat) (vq : ℚ)
    (hiq : i < q) (hqlen : q < l.length) (hq : l.getD q none = some vq)
    (hall : ∀ k, i < k → k < q → l.getD k none = none) :
    nextValidAfter l i = some (q, vq) := by
  rw [nextValidAfter]
  exact firstValidFrom_eq_some l q vq hq (l.length - (i + 1)) (i + 1)
    (by omega) (by omega) (fun k h1 h2 => hall k (by omega) h2)

/-- C4: in the dashboard's yearly pipeline, an unobserved year lying
strictly between two observed years receives the linear interpolation
between its nearest observed neighbours; and a position the zero fill
applies to (interpolation left it missing) has no observed year before
it — zero is used only for leading edge years that lack a left
neighbour to interpolate from. -/
theorem c4_yearly_interpolation :
    (∀ (rows : List MetricRow) (minY : Int) (len i p q : Nat) (vp vq : ℚ),
      i < len →
      groupMean rows (minY + i) = none →
      p < i → groupMean rows (minY + p) = some vp →
      (∀ j, p < j → j < i → groupMean rows (minY + j) = none) →
      i < q → q < len → groupMean rows (minY + q) = some vq →
      (∀ j, i < j → j < q → groupMean rows (minY + j) = none) →
      (yearlyAggregate rows minY len).getD i 0
        = vp + (vq - vp) * (((i : ℚ) - (p : ℚ)) / ((q : ℚ) - (p : ℚ)))) ∧
    (∀ (rows : List MetricRow) (minY : Int) (len i : Nat),
      i < len →
      interpolateAt (reindexedSeries rows minY len) i = none →
      ∀ j, j < i → groupMean rows (minY + j) = none) := by
  constructor
  · intro rows minY len i p q vp vq hi hmiss hpi hpv hallL hiq hqlen hqv hallR
    have hget : ∀ j, j < len →
        (reindexedSeries rows minY len).getD j none = groupMean rows (minY + j) :=
      fun j hj => reindexedSeries_getD rows minY len j hj
    have h1 : (reindexedSeries rows minY len).getD i none = none := by
      rw [hget i hi, hmiss]
    have h2 : lastValidBefore (reindexedSeries rows minY len) i = some (p, vp) :=
      lastValidBefore_eq_some _ p vp (by rw [hget p (by omega), hpv]) i hpi
        (fun j hj1 hj2 => by rw [hget j (by omega)]; exact hallL j hj1 hj2)
    have h3 : nextValidAfter (reindexedSeries rows minY len) i = some (q, vq) :=
      nextValidAfter_eq_some _ i q vq hiq
        (by rw [reindexedSeries_length]; exact hqlen)
        (by rw [hget q hqlen, hqv])
        (fun k hk1 hk2 => by rw [hget k (by omega)]; exact hallR k hk1 hk2)
    rw [yearlyAggregate_getD rows minY len i hi]
    simp only [interpolateAt, h1, h2, h3]
    rfl
  · intro rows minY len i hi hnone j hj
    have hget : ∀ k, k < len →
        (reindexedSeries rows minY len).getD k none = groupMean rows (minY + k) :=
      fun k hk => reindexedSeries_getD rows minY len k hk
    rcases hlast : lastValidBefore (reindexedSeries rows minY len) i with _ | ⟨p, vp⟩
    · have hj2 : (reindexedSeries rows minY len).getD j none = none :=
        getD_eq_none_of_lastValidBefore_none _ i hlast j hj
      rw [hget j (by omega)] at hj2
      exact hj2
    · exfalso
      rcases hcase : (reindexedSeries rows minY len).getD i none with _ | v
      · rcases hnext : nextValidAfter (reindexedSeries rows minY len) i with _ | ⟨q, vq⟩
        · rw [interpolateAt, hcase, hlast, hnext] at hnone
          exact Option.noConfusion hnone
        · rw [interpolateAt, hcase, hlast, hnext] at hnone
          exact Option.noConfusion hnone
      · rw [interpolateAt, hcase] at hnone
        exact Option.noConfusion hnone

theorem groupMean_gapRows_2000 : groupMean gapRows 2000 = some 2 := by
  simp [groupMean, gapRows]

theorem groupMean_gapRows_2002 : groupMean gapRows 2002 = some 6 := by
  simp [groupMean, gapRows]

/-- C4 witness: with observations 2 at year 2000 and 6 at year 2002,
the missing middle year 2001 gets the interpolated value 4, not zero;
and a leading gap year (data starting only in 2002) is indeed left for
the zero fill with no observed year before it. -/
theorem c4_yearly_interpolation_witness :
    (yearlyAggregate gapRows 2000 3).getD 1 0 = 4 ∧
    groupMean leadGapRows (2000 + ((0 : Nat) : Int)) = none := by
  constructor
  · have h := c4_yearly_interpolation.1 gapRows 2000 3 1 0 2 2 6
      (by omega) (by decide) (by omega) groupMean_gapRows_2000
      (fun j h1 h2 => absurd h2 (by omega))
      (by omega) (by omega) groupMean_gapRows_2002
      (fun j h1 h2 => absurd h2 (by omega))
    rw [h]
    norm_num
  · exact c4_yearly_interpolation.2 leadGapRows 2000 3 1 (by omega) (by decide)
      0 (by omega)

/-! ## Claim C8: the enrichment concurrency bound -/

/-- C8: in every state reachable during the enrichment pass, whatever
the number of discovered movies, the number of simultaneously
outstanding detail-fetch requests never exceeds the semaphore limit of
30. -/
theorem c8_semaphore_bound (n : Nat) (s : FetchState) (h : FetchReachable n s) :
    s.inflight ≤ semLimit := by
  induction h with
  | refl => simp [initFetch]
  | tail hsteps hstep ih =>
    cases hstep with
    | acquire hp hcap => simpa using hcap
    | release hf => simp; omega

/-- C8 witness: the state after one acquire step of a 20000-item run is
reachable and satisfies the bound. -/
theorem c8_semaphore_bound_witness :
    FetchReachable 20000 ⟨19999, 1, 0⟩ ∧
    (⟨19999, 1, 0⟩ : FetchState).inflight ≤ semLimit := by
  have hstep : FetchStep (initFetch 20000) ⟨19999, 1, 0⟩ := by
    have h := FetchStep.acquire (initFetch 20000) (by simp [initFetch])
      (by simp [initFetch, semLimit])
    simpa [initFetch] using h
  have hr : FetchReachable 20000 ⟨19999, 1, 0⟩ := Relation.ReflTransGen.single hstep
  exact ⟨hr, c8_semaphore_bound 20000 _ hr⟩

end CinemaScope
